import Mathlib

/-!
Shallow embedding of the item CRUD resource of this repository.

The data model comes from `src/app/models.py` (pydantic shapes `ItemCreate`,
`ItemInPublic`, `CreateItemResponse`) and `src/app/db_models.py` (the stored
row `ItemDB`).  The five endpoint bodies come from `src/app/routers/items.py`
(`create_item`, `get_items`, `get_item`, `update_item`, `delete_item`).  The
storage collaborator is embedded as an explicit state: a list of rows plus the
id counter; the counter semantics (assign current value, then increment, never
decrement) is the in-memory variant of `src/main.py` lines 10-11 and 63-80,
which also matches the serial primary key backing the relational variant.

Python floats are embedded as rationals (`Rat`), so `price * 0.6` is the exact
rational `price * (6/10)`.  Strings are Lean `String`s; `len` is `String.length`.
-/

namespace Spec

/-- Client input shape: pydantic model `ItemCreate` of `src/app/models.py`
(name, price, optional description, stock_quantity defaulting to 0).
The pydantic `Field` constraints are the separate predicate `isValid` below,
because pydantic checks them after JSON parsing, before the endpoint runs. -/
structure ItemCreate where
  name : String
  price : Rat
  description : Option String
  stock_quantity : Int
deriving Repr, DecidableEq

/-- The `max_length=200` constraint on the optional description field. -/
def descriptionOk : Option String → Bool
  | none => true
  | some d => decide (d.length ≤ 200)

/-- The pydantic `Field` constraints of `ItemCreate`:
`name: Field(min_length=3)`, `price: Field(gt=0)`,
`description: Field(default=None, max_length=200)`.
`stock_quantity` carries no constraint. -/
def ItemCreate.isValid (it : ItemCreate) : Bool :=
  decide (3 ≤ it.name.length) && decide (0 < it.price) && descriptionOk it.description

/-- Stored row: SQLAlchemy model `ItemDB` of `src/app/db_models.py`
(id, name, price, description, cost_price, supplier_secret,
stock_quantity with column default 0, created_at). -/
structure ItemDB where
  id : Nat
  name : String
  price : Rat
  description : Option String
  cost_price : Rat
  supplier_secret : String
  stock_quantity : Int
  created_at : Option String
deriving Repr, DecidableEq

/-- Public output shape `ItemInPublic` of `src/app/models.py`:
exactly the fields id, name, price, description. -/
structure ItemInPublic where
  id : Nat
  name : String
  price : Rat
  description : Option String
deriving Repr, DecidableEq

/-- Wrapper for the POST response: `CreateItemResponse` of `src/app/models.py`. -/
structure CreateItemResponse where
  item : ItemInPublic
  message : String
deriving Repr, DecidableEq

/-- The two user-facing failures of the resource: the 422 raised by FastAPI
when the request body violates the pydantic constraints, and the 404
`HTTPException` raised by the endpoints with a detail string. -/
inductive ApiError where
  | validationError : ApiError
  | notFound : String → ApiError
deriving Repr, DecidableEq

/-- Storage collaborator state: the rows of the `items` table together with
the id counter (`item_id_counter` of `src/main.py`; the relational variant's
serial primary key behaves the same way). -/
structure DBState where
  rows : List ItemDB
  nextId : Nat
deriving Repr, DecidableEq

/-- Fresh process state: empty collection, counter at 1
(`items_db = []`, `item_id_counter = 1` in `src/main.py`). -/
def initState : DBState := { rows := [], nextId := 1 }

/-- `select(ItemDB).where(ItemDB.id == item_id)` followed by
`scalar_one_or_none()`: the stored row with the given id, if any. -/
def DBState.getById (st : DBState) (i : Nat) : Option ItemDB :=
  st.rows.find? (fun r => r.id == i)

/-- The fixed internal secret constant `"ACME-42-PRIVATE"` assigned at
creation in `create_item` of `src/app/routers/items.py`. -/
def supplierSecretConst : String := "ACME-42-PRIVATE"

/-- The 404 detail string of `src/app/routers/items.py`:
`f"Item with ID {item_id} does not exist"`. -/
def notFoundDetail (item_id : Nat) : String :=
  s!"Item with ID {item_id} does not exist"

/-- ASCII apostrophe, used in the create confirmation message. -/
def apos : String := String.mk [Char.ofNat 39]

/-- Projection of a stored row to the public shape, as written at every
return site of `src/app/routers/items.py`:
`ItemInPublic(id=..., name=..., price=..., description=...)`. -/
def toPublic (r : ItemDB) : ItemInPublic :=
  { id := r.id, name := r.name, price := r.price, description := r.description }

/-- Endpoint `create_item` of `src/app/routers/items.py`: build the row with
`cost_price = item.price * 0.6` and the fixed secret, insert it (the id
comes from the counter; `stock_quantity` takes the column default 0 because
the constructor call does not pass it), and return the `ItemInPublic`
projection plus the confirmation message
`f"Item {apos}{item.name}{apos} created successfully"`. -/
def create_item (st : DBState) (item : ItemCreate) : CreateItemResponse × DBState :=
  let new_item : ItemDB :=
    { id := st.nextId,
      name := item.name,
      price := item.price,
      description := item.description,
      cost_price := item.price * (6/10 : Rat),
      supplier_secret := supplierSecretConst,
      stock_quantity := 0,
      created_at := none }
  ({ item := toPublic new_item,
     message := "Item " ++ apos ++ item.name ++ apos ++ " created successfully" },
   { rows := st.rows ++ [new_item], nextId := st.nextId + 1 })

/-- Endpoint `get_items` of `src/app/routers/items.py`: `SELECT * FROM items`,
project every row to `ItemInPublic`, in storage order. -/
def get_items (st : DBState) : List ItemInPublic :=
  st.rows.map toPublic

/-- Endpoint `get_item` of `src/app/routers/items.py`: look the id up;
absent raises the 404 `HTTPException`, present returns the projection. -/
def get_item (st : DBState) (item_id : Nat) : Except ApiError ItemInPublic :=
  match st.getById item_id with
  | none => .error (.notFound (notFoundDetail item_id))
  | some item => .ok (toPublic item)

/-- The four assignment statements of `update_item` in
`src/app/routers/items.py`: overwrite exactly `name`, `price`, `description`
and `cost_price = item_update.price * 0.6` on the existing row; every other
column (`id`, `supplier_secret`, `stock_quantity`, `created_at`) is untouched. -/
def updatedRow (existing_item : ItemDB) (item_update : ItemCreate) : ItemDB :=
  { existing_item with
    name := item_update.name,
    price := item_update.price,
    description := item_update.description,
    cost_price := item_update.price * (6/10 : Rat) }

/-- Endpoint `update_item` of `src/app/routers/items.py`: look the id up;
absent raises the 404 `HTTPException`; otherwise commit the field
assignments of `updatedRow` on the found row and return its projection. -/
def update_item (st : DBState) (item_id : Nat) (item_update : ItemCreate) :
    Except ApiError ItemInPublic × DBState :=
  match st.getById item_id with
  | none => (.error (.notFound (notFoundDetail item_id)), st)
  | some existing_item =>
    let updated : ItemDB := updatedRow existing_item item_update
    (.ok (toPublic updated),
     { st with rows := st.rows.map (fun r => if r.id == item_id then updated else r) })

/-- Endpoint `delete_item` of `src/app/routers/items.py`: look the id up;
absent raises the 404 `HTTPException`; otherwise delete that row
(204, empty body). -/
def delete_item (st : DBState) (item_id : Nat) : Except ApiError Unit × DBState :=
  match st.getById item_id with
  | none => (.error (.notFound (notFoundDetail item_id)), st)
  | some _ => (.ok (), { st with rows := st.rows.eraseP (fun r => r.id == item_id) })

/-- Full request pipeline for POST: FastAPI validates the body against the
pydantic model `ItemCreate` before the endpoint function runs; a constraint
violation yields the 422 response and the endpoint body never executes. -/
def handle_create (st : DBState) (body : ItemCreate) :
    Except ApiError CreateItemResponse × DBState :=
  if body.isValid then
    let (resp, st2) := create_item st body
    (.ok resp, st2)
  else
    (.error .validationError, st)

/-- Full request pipeline for PUT: FastAPI validates the body against
`ItemCreate` before `update_item` runs, so a constraint-violating body is
rejected with 422 before the existence lookup. -/
def handle_update (st : DBState) (item_id : Nat) (body : ItemCreate) :
    Except ApiError ItemInPublic × DBState :=
  if body.isValid then
    update_item st item_id body
  else
    (.error .validationError, st)

/-- One client request against the resource. GET and DELETE carry no body,
so only the path parameter (already type-checked as `int`) reaches the
endpoint. -/
inductive Request where
  | create : ItemCreate → Request
  | listItems : Request
  | getOne : Nat → Request
  | update : Nat → ItemCreate → Request
  | deleteOne : Nat → Request
deriving Repr, DecidableEq

/-- Effect of one request on the storage state. -/
def stepState (st : DBState) : Request → DBState
  | .create body => (handle_create st body).2
  | .listItems => st
  | .getOne _ => st
  | .update i body => (handle_update st i body).2
  | .deleteOne i => (delete_item st i).2

/-- State after a sequence of requests in one process lifetime. -/
def run (ops : List Request) : DBState :=
  ops.foldl stepState initState

/-- The ids handed out by the successful creates of a request sequence,
in order. -/
def assignedIds (st : DBState) : List Request → List Nat
  | [] => []
  | .create body :: ops =>
    if body.isValid then
      st.nextId :: assignedIds (stepState st (.create body)) ops
    else
      assignedIds (stepState st (.create body)) ops
  | op :: ops => assignedIds (stepState st op) ops

/-- Number of successful creates in a request sequence. -/
def validCreateCount : List Request → Nat
  | [] => 0
  | .create body :: ops => (if body.isValid then 1 else 0) + validCreateCount ops
  | _ :: ops => validCreateCount ops

/-- JSON values, to state what each response serializes to on the wire. -/
inductive Json where
  | null : Json
  | str : String → Json
  | num : Rat → Json
  | intVal : Int → Json
  | arr : List Json → Json
  | obj : List (String × Json) → Json
deriving Repr

mutual

/-- All object keys occurring anywhere in a JSON value. -/
def Json.keys : Json → List String
  | .null => []
  | .str _ => []
  | .num _ => []
  | .intVal _ => []
  | .arr xs => keysOfList xs
  | .obj fs => keysOfFields fs

/-- Keys of a list of JSON values. -/
def keysOfList : List Json → List String
  | [] => []
  | x :: xs => x.keys ++ keysOfList xs

/-- Keys of a JSON object field list. -/
def keysOfFields : List (String × Json) → List String
  | [] => []
  | f :: fs => f.1 :: (f.2.keys ++ keysOfFields fs)

end

/-- Serialization of an optional text field: JSON null when absent. -/
def optStrJson : Option String → Json
  | none => .null
  | some s => .str s

/-- FastAPI serializes `ItemInPublic` by its four declared fields. -/
def ItemInPublic.toJson (p : ItemInPublic) : Json :=
  .obj [("id", .intVal p.id), ("name", .str p.name), ("price", .num p.price),
        ("description", optStrJson p.description)]

/-- FastAPI serializes `CreateItemResponse` by its two declared fields. -/
def CreateItemResponse.toJson (r : CreateItemResponse) : Json :=
  .obj [("item", r.item.toJson), ("message", .str r.message)]

/-- Wire shape of the two error responses: the 422 body
`{"detail": [{"loc": ..., "msg": ..., "type": ...}]}` FastAPI builds from the
pydantic constraint violations, and the 404 body `{"detail": <detail string>}`
built from the `HTTPException`. -/
def ApiError.toJson : ApiError → Json
  | .validationError =>
    .obj [("detail", .arr [ .obj [("loc", .arr []), ("msg", .str "validation error"),
                                  ("type", .str "value_error")] ])]
  | .notFound d => .obj [("detail", .str d)]

/-- The JSON value returned to the client for one request against one state:
the success body on success (a 204 delete has an empty body, embedded as
JSON null), the error body on failure. -/
def responseJson (st : DBState) : Request → Json
  | .create body =>
    match (handle_create st body).1 with
    | .ok r => r.toJson
    | .error e => e.toJson
  | .listItems => .arr ((get_items st).map ItemInPublic.toJson)
  | .getOne i =>
    match get_item st i with
    | .ok p => p.toJson
    | .error e => e.toJson
  | .update i body =>
    match (handle_update st i body).1 with
    | .ok p => p.toJson
    | .error e => e.toJson
  | .deleteOne i =>
    match (delete_item st i).1 with
    | .ok _ => .null
    | .error e => e.toJson

/-- Every key that can legitimately appear in a response of this resource. -/
def allowedKeys : List String :=
  ["item", "message", "detail", "loc", "msg", "type", "id", "name", "price", "description"]

instance {ε α : Type} [DecidableEq ε] [DecidableEq α] : DecidableEq (Except ε α) := fun x y =>
  match x, y with
  | .ok a, .ok b =>
    if h : a = b then .isTrue (congrArg Except.ok h)
    else .isFalse (fun hc => h (Except.ok.inj hc))
  | .error a, .error b =>
    if h : a = b then .isTrue (congrArg Except.error h)
    else .isFalse (fun hc => h (Except.error.inj hc))
  | .ok _, .error _ => .isFalse (fun hc => Except.noConfusion hc)
  | .error _, .ok _ => .isFalse (fun hc => Except.noConfusion hc)

/-- The pydantic gate in one sentence: a body passes validation exactly when
the name has at least 3 characters, the price is positive, and a present
description has at most 200 characters. -/
theorem isValid_iff (it : ItemCreate) :
    it.isValid = true ↔
      3 ≤ it.name.length ∧ 0 < it.price ∧ ∀ d, it.description = some d → d.length ≤ 200 := by
  cases hd : it.description <;>
    simp [ItemCreate.isValid, descriptionOk, hd, and_assoc]

theorem keys_optStrJson (d : Option String) : (optStrJson d).keys = [] := by
  cases d <;> rfl

theorem keys_pub (p : ItemInPublic) :
    (ItemInPublic.toJson p).keys = ["id", "name", "price", "description"] := by
  cases hd : p.description <;>
    simp [ItemInPublic.toJson, Json.keys, keysOfFields, optStrJson, hd]

theorem keys_createResp (r : CreateItemResponse) :
    (CreateItemResponse.toJson r).keys = ["item", "id", "name", "price", "description", "message"] := by
  cases hd : r.item.description <;>
    simp [CreateItemResponse.toJson, ItemInPublic.toJson, Json.keys, keysOfFields, optStrJson, hd]

theorem keysOfList_map_pub (l : List ItemInPublic) :
    ∀ k ∈ keysOfList (l.map ItemInPublic.toJson), k ∈ ["id", "name", "price", "description"] := by
  induction l with
  | nil => simp [keysOfList]
  | cons p l ih =>
      intro k hk
      simp [keysOfList, keys_pub] at hk
      rcases hk with hk | hk | hk | hk | hk
      · simp [hk]
      · simp [hk]
      · simp [hk]
      · simp [hk]
      · exact ih k hk

theorem response_keys_allowed (st : DBState) (op : Request) :
    ∀ k ∈ (responseJson st op).keys, k ∈ allowedKeys := by
  cases op with
  | create body =>
      by_cases hv : body.isValid
      · intro k hk
        simp [responseJson, handle_create, hv, keys_createResp] at hk
        rcases hk with hk | hk | hk | hk | hk | hk <;> simp [hk, allowedKeys]
      · intro k hk
        simp [responseJson, handle_create, hv, ApiError.toJson, Json.keys,
          keysOfFields, keysOfList] at hk
        rcases hk with hk | hk | hk | hk <;> simp [hk, allowedKeys]
  | listItems =>
      intro k hk
      simp only [responseJson, get_items, Json.keys] at hk
      have h2 := keysOfList_map_pub (st.rows.map toPublic) k hk
      simp at h2
      rcases h2 with h | h | h | h <;> simp [h, allowedKeys]
  | getOne i =>
      intro k hk
      cases hg : st.getById i with
      | none =>
          simp [responseJson, get_item, hg, ApiError.toJson, Json.keys, keysOfFields] at hk
          simp [hk, allowedKeys]
      | some r =>
          simp [responseJson, get_item, hg, keys_pub] at hk
          rcases hk with hk | hk | hk | hk <;> simp [hk, allowedKeys]
  | update i body =>
      by_cases hv : body.isValid
      · cases hg : st.getById i with
        | none =>
            intro k hk
            simp [responseJson, handle_update, hv, update_item, hg, ApiError.toJson,
              Json.keys, keysOfFields] at hk
            simp [hk, allowedKeys]
        | some r =>
            intro k hk
            simp [responseJson, handle_update, hv, update_item, hg, keys_pub] at hk
            rcases hk with hk | hk | hk | hk <;> simp [hk, allowedKeys]
      · intro k hk
        simp [responseJson, handle_update, hv, ApiError.toJson, Json.keys,
          keysOfFields, keysOfList] at hk
        rcases hk with hk | hk | hk | hk <;> simp [hk, allowedKeys]
  | deleteOne i =>
      cases hg : st.getById i with
      | none =>
          intro k hk
          simp [responseJson, delete_item, hg, ApiError.toJson, Json.keys, keysOfFields] at hk
          simp [hk, allowedKeys]
      | some r =>
          intro k hk
          simp [responseJson, delete_item, hg, Json.keys] at hk

theorem nextId_update (st : DBState) (i : Nat) (body : ItemCreate) :
    (update_item st i body).2.nextId = st.nextId := by
  cases hg : st.getById i <;> simp [update_item, hg]

theorem nextId_delete (st : DBState) (i : Nat) :
    (delete_item st i).2.nextId = st.nextId := by
  cases hg : st.getById i <;> simp [delete_item, hg]

theorem nextId_handle_update (st : DBState) (i : Nat) (body : ItemCreate) :
    (handle_update st i body).2.nextId = st.nextId := by
  by_cases hv : body.isValid <;> simp [handle_update, hv, nextId_update]

/-- The ids handed out starting from any state are the consecutive integers
beginning at the current counter value, one per successful create. -/
theorem assignedIds_eq (ops : List Request) :
    ∀ st : DBState, assignedIds st ops = List.range' st.nextId (validCreateCount ops) := by
  induction ops with
  | nil => intro st; simp [assignedIds, validCreateCount]
  | cons op ops ih =>
      intro st
      cases op with
      | create body =>
          by_cases hv : body.isValid
          · simp only [assignedIds, hv, if_true, validCreateCount]
            rw [ih, Nat.add_comm 1, List.range'_succ]
            simp [stepState, handle_create, hv, create_item]
          · simp [assignedIds, validCreateCount, hv, ih, stepState, handle_create]
      | listItems => simp [assignedIds, validCreateCount, ih, stepState]
      | getOne i => simp [assignedIds, validCreateCount, ih, stepState]
      | update i body =>
          simp [assignedIds, validCreateCount, ih, stepState, nextId_handle_update]
      | deleteOne i =>
          simp [assignedIds, validCreateCount, ih, stepState, nextId_delete]

/-- Storage invariant maintained by every request: every stored id is below
the counter, stored ids are pairwise distinct, and every stored
`stock_quantity` is 0. -/
def WF (st : DBState) : Prop :=
  (∀ r ∈ st.rows, r.id < st.nextId) ∧
  (st.rows.map (fun r => r.id)).Nodup ∧
  (∀ r ∈ st.rows, r.stock_quantity = 0)

theorem WF_init : WF initState := by
  refine ⟨?_, ?_, ?_⟩ <;> simp [initState]

theorem WF_step (st : DBState) (op : Request) (h : WF st) : WF (stepState st op) := by
  obtain ⟨hlt, hnd, hsq⟩ := h
  cases op with
  | create body =>
      by_cases hv : body.isValid
      · simp only [stepState, handle_create, hv, if_true, create_item]
        refine ⟨?_, ?_, ?_⟩
        · intro r hr
          simp at hr
          rcases hr with hr | hr
          · exact Nat.lt_succ_of_lt (hlt r hr)
          · simp [hr]
        · simp [List.nodup_append]
          constructor
          · exact hnd
          · intro r hr hid
            exact absurd hid (Nat.ne_of_lt (hlt r hr))
        · intro r hr
          simp at hr
          rcases hr with hr | hr
          · exact hsq r hr
          · simp [hr]
      · simpa [stepState, handle_create, hv] using ⟨hlt, hnd, hsq⟩
  | listItems => exact ⟨hlt, hnd, hsq⟩
  | getOne i => exact ⟨hlt, hnd, hsq⟩
  | update i body =>
      by_cases hv : body.isValid
      · cases hg : st.getById i with
        | none => simpa [stepState, handle_update, hv, update_item, hg] using ⟨hlt, hnd, hsq⟩
        | some ex =>
            have hexmem : ex ∈ st.rows := List.mem_of_find?_eq_some hg
            have hexid : ex.id = i := by
              have := List.find?_some hg
              simpa using this
            have hid : ∀ r : ItemDB,
                (if r.id == i then updatedRow ex body else r).id = r.id := by
              intro r
              by_cases hb : r.id == i
              · have hri : r.id = i := by simpa using hb
                simp [hb, updatedRow, hexid, hri]
              · simp [hb]
            simp only [stepState, handle_update, hv, if_true, update_item, hg]
            refine ⟨?_, ?_, ?_⟩
            · intro r2 hr2
              simp only [List.mem_map] at hr2
              obtain ⟨r, hr, rfl⟩ := hr2
              rw [hid r]
              exact hlt r hr
            · simp only [List.map_map, Function.comp_def]
              rw [List.map_congr_left (fun r _ => hid r)]
              exact hnd
            · intro r2 hr2
              simp only [List.mem_map] at hr2
              obtain ⟨r, hr, rfl⟩ := hr2
              by_cases hb : r.id == i
              · simp only [hb, if_true]
                exact hsq ex hexmem
              · simp only [hb, Bool.false_eq_true, if_false]
                exact hsq r hr
      · simpa [stepState, handle_update, hv] using ⟨hlt, hnd, hsq⟩
  | deleteOne i =>
      cases hg : st.getById i with
      | none => simpa [stepState, delete_item, hg] using ⟨hlt, hnd, hsq⟩
      | some ex =>
          have hsub : (st.rows.eraseP (fun r => r.id == i)).Sublist st.rows :=
            List.eraseP_sublist st.rows
          simp only [stepState, delete_item, hg]
          refine ⟨?_, ?_, ?_⟩
          · intro r hr
            exact hlt r (hsub.mem hr)
          · exact List.Nodup.sublist (hsub.map (fun r => r.id)) hnd
          · intro r hr
            exact hsq r (hsub.mem hr)

theorem WF_foldl (ops : List Request) :
    ∀ st : DBState, WF st → WF (ops.foldl stepState st) := by
  induction ops with
  | nil => intro st h; exact h
  | cons op ops ih =>
      intro st h
      exact ih (stepState st op) (WF_step st op h)

/-- Every state reachable from a fresh process satisfies the invariant. -/
theorem WF_run (ops : List Request) : WF (run ops) :=
  WF_foldl ops initState WF_init

/-- Failing validation is exactly violating one of the three constraints. -/
theorem isValid_false_iff (it : ItemCreate) :
    it.isValid = false ↔
      it.name.length < 3 ∨ it.price ≤ 0 ∨ ∃ d, it.description = some d ∧ 200 < d.length := by
  constructor
  · intro h
    by_contra hc
    push_neg at hc
    obtain ⟨h1, h2, h3⟩ := hc
    have hv : it.isValid = true := by
      refine (isValid_iff it).mpr ⟨by omega, ?_, ?_⟩
      · exact h2
      · intro d hd
        exact h3 d hd
    rw [hv] at h
    exact Bool.noConfusion h
  · intro h
    cases hb : it.isValid
    · rfl
    · exfalso
      obtain ⟨h1, h2, h3⟩ := (isValid_iff it).mp hb
      rcases h with h | h | ⟨d, hd, hlen⟩
      · omega
      · exact absurd h2 (not_lt.mpr h)
      · have := h3 d hd
        omega

/-- After erasing the row with a given id from a duplicate-free collection,
no row with that id remains. -/
theorem find?_eraseP_eq_none (l : List ItemDB) (i : Nat)
    (hnd : (l.map (fun r => r.id)).Nodup) :
    (l.eraseP (fun r => r.id == i)).find? (fun r => r.id == i) = none := by
  induction l with
  | nil => simp
  | cons a l ih =>
      simp only [List.map_cons, List.nodup_cons] at hnd
      obtain ⟨hna, hnd⟩ := hnd
      by_cases hb : (a.id == i) = true
      · have hai : a.id = i := by simpa using hb
        rw [List.eraseP_cons_of_pos (p := fun r : ItemDB => r.id == i) hb, List.find?_eq_none]
        intro r hr
        simp only [beq_iff_eq]
        intro hri
        exact hna (by rw [hai, ← hri]; exact List.mem_map_of_mem _ hr)
      · rw [List.eraseP_cons_of_neg (p := fun r : ItemDB => r.id == i) (by simpa using hb)]
        rw [List.find?_cons_of_neg _ (by simpa using hb)]
        exact ih hnd

/-- Example create body from the spec scenarios:
`{name: "Widget", price: 10.0, description: "basic"}`. -/
def widgetBody : ItemCreate :=
  { name := "Widget", price := 10, description := some "basic", stock_quantity := 0 }

/-- Example replacement body from the spec scenarios:
`{name: "Gadget", price: 20.0}`. -/
def gadgetBody : ItemCreate :=
  { name := "Gadget", price := 20, description := none, stock_quantity := 0 }

/-- A constraint-violating body: the name has fewer than 3 characters. -/
def badBody : ItemCreate :=
  { name := "ab", price := 5, description := none, stock_quantity := 0 }

/-- The state after creating the widget in a fresh process. -/
def st1 : DBState := (create_item initState widgetBody).2

/-- The stored row the widget create produces. -/
def row1 : ItemDB :=
  { id := 1, name := "Widget", price := 10, description := some "basic",
    cost_price := 6, supplier_secret := supplierSecretConst,
    stock_quantity := 0, created_at := none }

theorem st1_rows : st1.rows = [row1] := by
  simp only [st1, create_item, initState, widgetBody, row1]
  norm_num

theorem st1_getById : st1.getById 1 = some row1 := by
  simp [DBState.getById, st1_rows, row1]

theorem st1_nodup : (st1.rows.map (fun r => r.id)).Nodup := by
  simp [st1_rows]

/-- C1: for every storage state and every request (create, list, get by id,
update, delete), the JSON value returned to the client — success body or
error body — never contains the keys `cost_price` or `supplier_secret`
anywhere, and every key it does contain is one of the declared response
keys (the item fields id, name, price, description and the wrapper keys
item, message, detail, loc, msg, type). -/
theorem C1_no_internal_fields_in_any_response (st : DBState) (op : Request) :
    "cost_price" ∉ (responseJson st op).keys ∧
    "supplier_secret" ∉ (responseJson st op).keys ∧
    ∀ k ∈ (responseJson st op).keys, k ∈ allowedKeys := by
  have hsub := response_keys_allowed st op
  refine ⟨?_, ?_, hsub⟩
  · intro h
    have := hsub _ h
    simp [allowedKeys] at this
  · intro h
    have := hsub _ h
    simp [allowedKeys] at this

/-- C1 witness: at a concrete create request the allowed-key property is
exercised on the key "item", with the membership evaluated concretely. -/
theorem C1_witness :
    "item" ∈ (responseJson initState (Request.create widgetBody)).keys ∧
    "item" ∈ allowedKeys :=
  ⟨by decide,
   (C1_no_internal_fields_in_any_response initState (Request.create widgetBody)).2.2
     "item" (by decide)⟩

/-- C2: the row stored by create has `cost_price = price * 0.6` computed from
the client price (the input shape has no cost_price field at all), and after
an update the row stored under the updated id has `cost_price` recomputed as
the new price times 0.6. -/
theorem C2_cost_price_always_derived (st : DBState) (body : ItemCreate) (i : Nat) :
    ((create_item st body).2.rows.getLast?).map (fun r => r.cost_price)
        = some (body.price * (6/10 : Rat)) ∧
    ∀ r ∈ (update_item st i body).2.rows, r.id = i →
        r.cost_price = body.price * (6/10 : Rat) := by
  constructor
  · simp [create_item, List.getLast?_concat]
  · intro r hr hri
    cases hg : st.getById i with
    | none =>
        simp [update_item, hg] at hr
        have hg2 : st.rows.find? (fun r => r.id == i) = none := hg
        have hnone := List.find?_eq_none.mp hg2 r hr
        simp [hri] at hnone
    | some ex =>
        simp only [update_item, hg, List.mem_map] at hr
        obtain ⟨r0, hr0, rfl⟩ := hr
        by_cases hb : (r0.id == i) = true
        · simp [hb, updatedRow]
        · simp only [hb, Bool.false_eq_true, if_false] at hri ⊢
          exact absurd hri (by simpa using hb)

/-- C2 witness: creating the widget stores cost_price 6 = 10 * 0.6, and
updating it to price 20 stores cost_price 12 = 20 * 0.6. -/
theorem C2_witness :
    updatedRow row1 gadgetBody ∈ (update_item st1 1 gadgetBody).2.rows ∧
    (updatedRow row1 gadgetBody).id = 1 ∧
    (updatedRow row1 gadgetBody).cost_price = gadgetBody.price * (6/10 : Rat) :=
  ⟨by simp [update_item, st1_getById, st1_rows, row1, updatedRow],
   by simp [updatedRow, row1],
   (C2_cost_price_always_derived st1 gadgetBody 1).2
     (updatedRow row1 gadgetBody)
     (by simp [update_item, st1_getById, st1_rows, row1, updatedRow])
     (by simp [updatedRow, row1])⟩

/-- C3: within one process lifetime, the ids assigned by the successful
creates of any request sequence are exactly the consecutive integers
starting at 1 — hence strictly increasing, and never repeated even when
deletes intervene. -/
theorem C3_ids_strictly_increasing_never_reused (ops : List Request) :
    assignedIds initState ops = List.range' 1 (validCreateCount ops) ∧
    (assignedIds initState ops).Pairwise (· < ·) ∧
    (assignedIds initState ops).Nodup := by
  have h := assignedIds_eq ops initState
  have h1 : initState.nextId = 1 := rfl
  rw [h1] at h
  refine ⟨h, ?_, ?_⟩
  · rw [h]
    exact List.pairwise_lt_range' 1 (validCreateCount ops)
  · rw [h]
    exact List.nodup_range' 1 (validCreateCount ops)

/-- C4: updating an id that is absent from the collection fails with the 404
not-found error naming that id and returns the state unchanged — no record
is added, removed or modified — for every replacement body the endpoint can
receive. -/
theorem C4_update_absent_id_not_found (st : DBState) (i : Nat) (body : ItemCreate)
    (h : st.getById i = none) :
    update_item st i body = (.error (.notFound (notFoundDetail i)), st) ∧
    (update_item st i body).2.rows = st.rows := by
  constructor <;> simp [update_item, h]

/-- C4 witness: updating id 999 on the empty collection. -/
theorem C4_witness :
    initState.getById 999 = none ∧
    update_item initState 999 widgetBody
      = (.error (.notFound (notFoundDetail 999)), initState) :=
  ⟨by decide, (C4_update_absent_id_not_found initState 999 widgetBody (by decide)).1⟩

/-- C5 counterexample: the claim says an absent id with an invalid body
yields NotFoundError. On the code, updating absent id 999 with a body whose
name is shorter than 3 characters yields the validation error, not the 404:
FastAPI checks the pydantic body before the endpoint's existence lookup
can run. -/
theorem C5_counterexample :
    (handle_update initState 999 badBody).1 = Except.error ApiError.validationError ∧
    (handle_update initState 999 badBody).1
      ≠ Except.error (ApiError.notFound (notFoundDetail 999)) := by
  constructor
  · rfl
  · decide

/-- C5 amended: body validation precedes the existence lookup. An update
whose body violates the Item-Create constraints fails with ValidationError
(whether or not the id exists) and leaves the state unchanged; an update
with a valid body on an absent id fails with NotFoundError and leaves the
state unchanged. -/
theorem C5_validation_precedes_lookup (st : DBState) (i : Nat) (body : ItemCreate) :
    (body.isValid = false → handle_update st i body = (.error .validationError, st)) ∧
    (body.isValid = true → st.getById i = none →
        handle_update st i body = (.error (.notFound (notFoundDetail i)), st)) := by
  constructor
  · intro hv
    simp [handle_update, hv]
  · intro hv hg
    simp [handle_update, hv, update_item, hg]

/-- C5 witness: both branches at concrete inputs — the invalid body on
absent id 999 gives the validation error; the valid body on absent id 999
gives the 404. -/
theorem C5_witness :
    handle_update initState 999 badBody = (.error .validationError, initState) ∧
    handle_update initState 999 widgetBody
      = (.error (.notFound (notFoundDetail 999)), initState) :=
  ⟨(C5_validation_precedes_lookup initState 999 badBody).1 (by decide),
   (C5_validation_precedes_lookup initState 999 widgetBody).2 (by decide) (by decide)⟩

/-- C6: a create fails with ValidationError exactly when the body violates a
constraint (name shorter than 3, or price not positive, or a present
description longer than 200); on failure the state is unchanged (no record
written), and on a valid body the pipeline performs the storage create. -/
theorem C6_create_validated_before_storage (st : DBState) (body : ItemCreate) :
    ((handle_create st body).1 = .error .validationError ↔
      (body.name.length < 3 ∨ body.price ≤ 0 ∨
        ∃ d, body.description = some d ∧ 200 < d.length)) ∧
    (body.isValid = false → (handle_create st body).2 = st) ∧
    (body.isValid = true →
      handle_create st body = (.ok (create_item st body).1, (create_item st body).2)) := by
  refine ⟨?_, ?_, ?_⟩
  · have hiff : ((handle_create st body).1 = .error .validationError) ↔
        (body.isValid = false) := by
      by_cases hv : body.isValid <;> simp [handle_create, hv]
    rw [hiff, isValid_false_iff]
  · intro hv
    simp [handle_create, hv]
  · intro hv
    simp [handle_create, hv]

/-- C6 witness: the short-named body is rejected with no write; the widget
body passes through to storage. -/
theorem C6_witness :
    (handle_create initState badBody).2 = initState ∧
    handle_create initState widgetBody
      = (.ok (create_item initState widgetBody).1, (create_item initState widgetBody).2) :=
  ⟨(C6_create_validated_before_storage initState badBody).2.1 (by decide),
   (C6_create_validated_before_storage initState widgetBody).2.2 (by decide)⟩

/-- C7: a successful update replaces exactly name, price, description and the
derived cost_price on the stored record and preserves its id,
supplier_secret (and stock_quantity, created_at); every other record is
untouched. Stated for collections with pairwise-distinct ids, which every
reachable state has. -/
theorem C7_update_preserves_id_and_secret (st : DBState) (i : Nat) (body : ItemCreate)
    (ex : ItemDB)
    (hnd : (st.rows.map (fun r => r.id)).Nodup)
    (h : st.getById i = some ex) :
    (update_item st i body).1 = .ok (toPublic (updatedRow ex body)) ∧
    (update_item st i body).2.rows
      = st.rows.map (fun r => if r.id == i then updatedRow r body else r) ∧
    (updatedRow ex body).id = ex.id ∧
    (updatedRow ex body).supplier_secret = ex.supplier_secret ∧
    (updatedRow ex body).stock_quantity = ex.stock_quantity := by
  have hexmem : ex ∈ st.rows := List.mem_of_find?_eq_some h
  have hexid : ex.id = i := by simpa using List.find?_some h
  refine ⟨by simp [update_item, h], ?_, rfl, rfl, rfl⟩
  simp only [update_item, h]
  refine List.map_congr_left ?_
  intro r hr
  by_cases hb : (r.id == i) = true
  · have hri : r.id = i := by simpa using hb
    have hre : r = ex :=
      List.inj_on_of_nodup_map hnd hr hexmem (by rw [hri, hexid])
    simp [hb, hre]
  · simp [hb]

/-- C7 witness: updating the widget row to the gadget body returns the
public projection of the updated row, whose id and supplier_secret are the
original ones. -/
theorem C7_witness :
    (update_item st1 1 gadgetBody).1 = .ok (toPublic (updatedRow row1 gadgetBody)) ∧
    (updatedRow row1 gadgetBody).supplier_secret = supplierSecretConst :=
  ⟨(C7_update_preserves_id_and_secret st1 1 gadgetBody row1 st1_nodup st1_getById).1,
   by simp [updatedRow, row1]⟩

/-- C8: immediately after a create, getting the id the create returned
succeeds and returns exactly the created public record. Stated for states
whose stored ids are all below the counter, which every reachable state
satisfies. -/
theorem C8_create_then_get_roundtrip (st : DBState) (body : ItemCreate)
    (h : ∀ r ∈ st.rows, r.id < st.nextId) :
    get_item (create_item st body).2 (create_item st body).1.item.id
      = .ok (create_item st body).1.item := by
  have hnone : st.rows.find? (fun r => r.id == st.nextId) = none := by
    rw [List.find?_eq_none]
    intro r hr
    simpa using Nat.ne_of_lt (h r hr)
  simp [create_item, get_item, DBState.getById, List.find?_append, hnone, toPublic]

/-- C8 witness: create the widget in a fresh process, then get id 1. -/
theorem C8_witness :
    get_item (create_item initState widgetBody).2
        (create_item initState widgetBody).1.item.id
      = .ok (create_item initState widgetBody).1.item :=
  C8_create_then_get_roundtrip initState widgetBody (by simp [initState])

/-- C9: after a successful delete of an id, getting that id fails with the
404 not-found error, and deleting it a second time also reports not-found
(returning the state unchanged rather than crashing). Stated for
collections with pairwise-distinct ids, which every reachable state has. -/
theorem C9_delete_then_get_not_found (st : DBState) (i : Nat)
    (hnd : (st.rows.map (fun r => r.id)).Nodup)
    (h : (delete_item st i).1 = .ok ()) :
    get_item (delete_item st i).2 i = .error (.notFound (notFoundDetail i)) ∧
    delete_item (delete_item st i).2 i
      = (.error (.notFound (notFoundDetail i)), (delete_item st i).2) := by
  cases hg : st.getById i with
  | none =>
      exfalso
      simp [delete_item, hg] at h
  | some ex =>
      have hkey : (delete_item st i).2.getById i = none := by
        have hg2 : st.rows.find? (fun r => r.id == i) = some ex := hg
        simp only [delete_item, DBState.getById, hg2]
        exact find?_eraseP_eq_none st.rows i hnd
      constructor
      · simp [get_item, hkey]
      · generalize h2 : (delete_item st i).2 = st2 at hkey ⊢
        simp [delete_item, hkey]

/-- C9 witness: create the widget, delete id 1, then get id 1. -/
theorem C9_witness :
    (delete_item st1 1).1 = .ok () ∧
    get_item (delete_item st1 1).2 1 = .error (.notFound (notFoundDetail 1)) :=
  ⟨by simp [delete_item, st1_getById],
   (C9_delete_then_get_not_found st1 1 st1_nodup
     (by simp [delete_item, st1_getById])).1⟩

/-- C10: stock_quantity is never taken from the client: in every state
reachable by any request sequence — whatever stock_quantity values the
bodies carried — every stored record has stock_quantity 0, and the row a
create appends has stock_quantity 0 for every body. -/
theorem C10_stock_quantity_always_zero (ops : List Request) (st : DBState)
    (body : ItemCreate) :
    (∀ r ∈ (run ops).rows, r.stock_quantity = 0) ∧
    ((create_item st body).2.rows.getLast?).map (fun r => r.stock_quantity) = some 0 := by
  constructor
  · exact (WF_run ops).2.2
  · simp [create_item, List.getLast?_concat]

theorem run_create7_rows :
    (run [Request.create { widgetBody with stock_quantity := 7 }]).rows = [row1] := by
  simp only [run, List.foldl, stepState, handle_create]
  norm_num [ItemCreate.isValid, descriptionOk, widgetBody, create_item, initState, row1]
  rw [if_pos (by constructor <;> decide)]

/-- C10 witness: a create whose body carries stock_quantity 7 still stores 0. -/
theorem C10_witness :
    row1 ∈ (run [Request.create { widgetBody with stock_quantity := 7 }]).rows ∧
    row1.stock_quantity = 0 :=
  ⟨by simp [run_create7_rows],
   (C10_stock_quantity_always_zero
      [Request.create { widgetBody with stock_quantity := 7 }] initState widgetBody).1
     row1 (by simp [run_create7_rows])⟩

end Spec
